import Mathlib

/-!
Verification of the alert-store backend (`src/Interface/backend_.py`).

The Python module keeps a process-wide JSON document (`alerts_database`)
with fields `active_alerts`, `read_alerts` and `alerts_by_time`, and
synchronises it with a JSON file on disk.  We embed JSON values as the
inductive `JValue`, the possible contents of the backing file as
`FileState`, and each Python function as a Lean function returning
`Except Unit _`, where `Except.error ()` models an uncaught Python
exception (TypeError, KeyError, AttributeError) escaping the function.
-/

/-- A JSON value, as produced by `json.load`.  Numbers are modelled by `Int`
(no claim under consideration depends on non-integer numerics).  Objects are
association lists in insertion order, matching CPython dict semantics. -/
inductive JValue where
  | null : JValue
  | bool : Bool → JValue
  | num : Int → JValue
  | str : String → JValue
  | arr : List JValue → JValue
  | obj : List (String × JValue) → JValue

/-- A JSON object body: fields in insertion order. -/
abbrev JObj := List (String × JValue)

/-- The contents of the backing file: absent (`FileNotFoundError` on open),
unparsable (`json.JSONDecodeError`), or a successfully parsed JSON value. -/
inductive FileState where
  | missing : FileState
  | corrupt : FileState
  | valid : JValue → FileState

/-- Lookup of a key in a JSON object body (CPython `d[k]` read on a dict:
keys are unique in a real dict, so the first occurrence is the binding). -/
def alookup (k : String) : JObj → Option JValue
  | [] => none
  | p :: rest => if p.1 = k then some p.2 else alookup k rest

/-- The keys of a JSON object body, in order. -/
def keys (o : JObj) : List String := o.map Prod.fst

/-- CPython `d[k] = v` on a dict: replace in place when the key is present
(keeping its position), otherwise append the new binding at the end. -/
def objInsert (o : JObj) (k : String) (v : JValue) : JObj :=
  if (alookup k o).isSome then
    o.map (fun p => if p.1 = k then (k, v) else p)
  else
    o ++ [(k, v)]

/-- CPython `d.update(extra)`: assign each binding of `extra`, in order,
into `d`. -/
def updateAll (o : JObj) (extra : JObj) : JObj :=
  extra.foldl (fun acc p => objInsert acc p.1 p.2) o

/-- CPython `d.get(k, dflt)` on an object body. -/
def getD (o : JObj) (k : String) (dflt : JValue) : JValue :=
  (alookup k o).getD dflt

/-- Python truthiness of a JSON value (`not x` in the unread filter). -/
def pyTruthy : JValue → Bool
  | .null => false
  | .bool b => b
  | .num n => n != 0
  | .str s => s != ""
  | .arr xs => !xs.isEmpty
  | .obj o => !o.isEmpty

/-- Whether `pat` occurs as a substring of `s` (Python `pat in s` for
strings; `pat` is one of the three nonempty field names here). -/
def containsSub (s pat : String) : Bool :=
  (s.splitOn pat).length != 1

/-- Python `k in data` for the values `json.load` can produce: key test on a
dict, element test on a list, substring test on a string; any other operand
raises `TypeError` (argument not iterable / not a container). -/
def pyContains (v : JValue) (k : String) : Except Unit Bool :=
  match v with
  | .obj o => .ok (alookup k o).isSome
  | .arr xs => .ok (xs.any fun x => match x with | .str s => s == k | _ => false)
  | .str s => .ok (containsSub s k)
  | _ => .error ()

/-- Python `data[k] = x` with a string key: only dicts accept it; a list,
string, number, boolean or null raises `TypeError`. -/
def pySetItem (v : JValue) (k : String) (x : JValue) : Except Unit JValue :=
  match v with
  | .obj o => .ok (.obj (objInsert o k x))
  | _ => .error ()

/-- Python `data[k]` with a string key: `KeyError` when a dict lacks the
key, `TypeError` on any non-dict operand. -/
def pyIndex (v : JValue) (k : String) : Except Unit JValue :=
  match v with
  | .obj o =>
    match alookup k o with
    | some x => .ok x
    | none => .error ()
  | _ => .error ()

/-- Python `data.get(k, dflt)`: only dicts have `.get`; any other operand
raises `AttributeError`. -/
def pyGetD (v : JValue) (k : String) (dflt : JValue) : Except Unit JValue :=
  match v with
  | .obj o => .ok (getD o k dflt)
  | _ => .error ()

/-- The zero-value document used by both fallback paths of the source
(lines 12-16, 60-64 and 114-118), with fields in source order. -/
def emptyDoc : JValue :=
  .obj [("active_alerts", .arr []), ("read_alerts", .arr []), ("alerts_by_time", .obj [])]

/-- One `if k not in data: data[k] = dflt` step of
`load_alerts_from_file` (source lines 105-110). -/
def ensureField (k : String) (dflt : JValue) (v : JValue) : Except Unit JValue :=
  match pyContains v k with
  | .error u => .error u
  | .ok true => .ok v
  | .ok false => pySetItem v k dflt

/-- `load_alerts_from_file` (source lines 91-118): on a missing or
unparsable file, reset to the zero-value document; otherwise take the
parsed value and ensure the three fields exist, in source order
(`alerts_by_time`, then `active_alerts`, then `read_alerts`).  An uncaught
`TypeError` from the membership tests or item assignments is `.error ()`. -/
def load_alerts_from_file (fs : FileState) : Except Unit JValue :=
  match fs with
  | .missing => .ok emptyDoc
  | .corrupt => .ok emptyDoc
  | .valid data =>
    match ensureField "alerts_by_time" (.obj []) data with
    | .error u => .error u
    | .ok v1 =>
      match ensureField "active_alerts" (.arr []) v1 with
      | .error u => .error u
      | .ok v2 => ensureField "read_alerts" (.arr []) v2

/-- The merge loop of `save_alerts_to_file` (source lines 75-76):
`for hour, alert_info in mem_abt: existing["alerts_by_time"][hour] = info`.
Each iteration indexes the current `alerts_by_time` value and item-assigns
into it; a non-dict value there raises `TypeError`. -/
def mergeLoop : JObj → JObj → Except Unit JObj
  | [], e => .ok e
  | (h, info) :: rest, e =>
    match alookup "alerts_by_time" e with
    | some (.obj eabt) =>
      mergeLoop rest (objInsert e "alerts_by_time" (.obj (objInsert eabt h info)))
    | _ => .error ()

/-- The merge phase of `save_alerts_to_file` (source lines 53-76) applied
to the in-memory document and the raw existing value read back from disk:
overwrite `active_alerts` and `read_alerts` wholesale, ensure
`alerts_by_time` exists, then merge the in-memory hour map key by key.
`alerts_database.get` on a non-dict raises `AttributeError`, item
assignment into a non-dict existing value raises `TypeError`, a missing
`alerts_by_time` in memory raises `KeyError`, and `.items()` on a non-dict
raises `AttributeError`; all are `.error ()`. -/
def save_merge_doc (mem existing : JValue) : Except Unit JValue :=
  match mem, existing with
  | .obj m, .obj e =>
    let e1 := objInsert e "active_alerts" (getD m "active_alerts" (.arr []))
    let e2 := objInsert e1 "read_alerts" (getD m "read_alerts" (.arr []))
    let e3 :=
      match alookup "alerts_by_time" e2 with
      | some _ => e2
      | none => objInsert e2 "alerts_by_time" (.obj [])
    match alookup "alerts_by_time" m with
    | some (.obj mabt) =>
      match mergeLoop mabt e3 with
      | .ok e4 => .ok (.obj e4)
      | .error u => .error u
    | some _ => .error ()
    | none => .error ()
  | _, _ => .error ()

/-- The document `save_alerts_to_file` would write for a given in-memory
document and backing-file state: the existing data is the parsed file
content, or the zero-value document when the file is missing or corrupt
(source lines 55-64). -/
def save_merge (mem : JValue) (fs : FileState) : Except Unit JValue :=
  save_merge_doc mem (match fs with | .valid v => v | _ => emptyDoc)

/-- `save_alerts_to_file` (source lines 46-87).  `writeOk` models whether
the file write itself succeeds; on an `IOError` there the handler only
prints a diagnostic, so the caller sees a normal return with the in-memory
document and the file untouched (line 83 is skipped).  On a successful
write the merged document is written and `alerts_database.update` installs
it over the in-memory document.  Exceptions from the merge phase are not
`IOError` and so escape to the caller. -/
def save_alerts_to_file (writeOk : Bool) (mem : JValue) (fs : FileState) :
    Except Unit (JValue × FileState) :=
  match save_merge mem fs with
  | .error u => .error u
  | .ok w =>
    if writeOk then
      match mem, w with
      | .obj m, .obj e => .ok (.obj (updateAll m e), .valid w)
      | _, _ => .error ()
    else
      .ok (mem, fs)

/-- The record built by `add_alert_by_time` (source lines 34-39), with
fields in source order. -/
def alertRecord (parameter value message : JValue) : JValue :=
  .obj [("Parameter", parameter), ("Value", value), ("Message", message),
        ("read", .bool false)]

/-- `add_alert_by_time` (source lines 20-42): reload from the file, set
`alerts_by_time[hour]` to a fresh record with `read = False`, then save.
The previous in-memory document is not consulted at all, so it is not a
parameter.  Returns the resulting in-memory document and file state. -/
def add_alert_by_time (hour : String) (parameter value message : JValue)
    (writeOk : Bool) (fs : FileState) : Except Unit (JValue × FileState) :=
  match load_alerts_from_file fs with
  | .error u => .error u
  | .ok mem1 =>
    match pyIndex mem1 "alerts_by_time" with
    | .error u => .error u
    | .ok abt =>
      match pySetItem abt hour (alertRecord parameter value message) with
      | .error u => .error u
      | .ok abt2 =>
        match pySetItem mem1 "alerts_by_time" abt2 with
        | .error u => .error u
        | .ok mem2 => save_alerts_to_file writeOk mem2 fs

/-- `get_alerts_by_time` (source lines 122-130): reload, then return
`alerts_database["alerts_by_time"]`. -/
def get_alerts_by_time (fs : FileState) : Except Unit JValue :=
  match load_alerts_from_file fs with
  | .error u => .error u
  | .ok mem1 => pyIndex mem1 "alerts_by_time"

/-- The list comprehension of `get_unread_alerts` (source lines 142-146)
over the values of `alerts_by_time`: keep each alert whose
`alert.get("read", False)` is falsy; `.get` on a non-dict alert raises
`AttributeError`. -/
def unreadLoop : JObj → Except Unit (List JValue)
  | [] => .ok []
  | (_, a) :: rest =>
    match pyGetD a "read" (.bool false) with
    | .error u => .error u
    | .ok r =>
      match unreadLoop rest with
      | .error u => .error u
      | .ok tail => .ok (if pyTruthy r then tail else a :: tail)

/-- `get_unread_alerts` (source lines 134-146): reload, then filter the
values of `alerts_by_time` keeping those whose `read` field is falsy or
absent, in map insertion order.  `.values()` on a non-dict raises
`AttributeError`. -/
def get_unread_alerts (fs : FileState) : Except Unit (List JValue) :=
  match load_alerts_from_file fs with
  | .error u => .error u
  | .ok mem1 =>
    match pyIndex mem1 "alerts_by_time" with
    | .error u => .error u
    | .ok (.obj entries) => unreadLoop entries
    | .ok _ => .error ()

/-- Python `item["Date"] == date` for a JSON value against a string:
equal only when the value is that string. -/
def pyEqStr (v : JValue) (s : String) : Bool :=
  match v with
  | .str t => t == s
  | _ => false

/-- `get_trend_data` (source lines 163-173): first entry of the
collaborator averaged-trend list whose `Date` equals the requested date,
or the empty dict when none matches.  Indexing `item["Date"]` raises
`KeyError`/`TypeError` on an ill-shaped entry. -/
def get_trend_data (data_list : List JValue) (date : String) : Except Unit JValue :=
  match data_list with
  | [] => .ok (.obj [])
  | item :: rest =>
    match pyIndex item "Date" with
    | .error u => .error u
    | .ok d => if pyEqStr d date then .ok item else get_trend_data rest date

/-- `get_detailed_trend_data` (source lines 175-184):
`detailed_data.get(date, {})` on the collaborator detailed mapping. -/
def get_detailed_trend_data (detailed : JValue) (date : String) : Except Unit JValue :=
  pyGetD detailed date (.obj [])

/-- Spec §3 record invariant: a JSON value is a record carrying the four
alert fields `Parameter`, `Value`, `Message`, `read`. -/
def hasRecordFields (v : JValue) : Bool :=
  match v with
  | .obj o =>
    (alookup "Parameter" o).isSome && (alookup "Value" o).isSome &&
      (alookup "Message" o).isSome && (alookup "read" o).isSome
  | _ => false

example : load_alerts_from_file .missing = .ok emptyDoc := rfl

example :
    load_alerts_from_file (.valid (.obj [("x", .num 1)])) =
      .ok (.obj [("x", .num 1), ("alerts_by_time", .obj []),
                 ("active_alerts", .arr []), ("read_alerts", .arr [])]) := rfl

example : load_alerts_from_file (.valid (.num 3)) = .error () := rfl

/-! ## Association-list infrastructure -/

theorem alookup_eq_none_iff (k : String) (o : JObj) :
    alookup k o = none ↔ k ∉ keys o := by
  induction o with
  | nil => simp [alookup, keys]
  | cons p rest ih =>
    by_cases h : p.1 = k
    · simp [alookup, keys, h]
    · simp [alookup, keys, h, ih, Ne.symm h]

theorem alookup_isSome_iff (k : String) (o : JObj) :
    (alookup k o).isSome = true ↔ k ∈ keys o := by
  induction o with
  | nil => simp [alookup, keys]
  | cons p rest ih =>
    by_cases h : p.1 = k
    · simp [alookup, keys, h]
    · simp [alookup, keys, h, ih, Ne.symm h]

theorem alookup_mem_keys {k : String} {o : JObj} {v : JValue}
    (h : alookup k o = some v) : k ∈ keys o := by
  rw [← alookup_isSome_iff, h]
  rfl

theorem alookup_map_replace {o : JObj} {k : String} (v : JValue)
    (h : (alookup k o).isSome = true) :
    alookup k (o.map (fun p => if p.1 = k then (k, v) else p)) = some v := by
  induction o with
  | nil => simp [alookup] at h
  | cons p rest ih =>
    by_cases hp : p.1 = k
    · simp [alookup, hp]
    · simp only [alookup, hp, if_false] at h
      simpa [alookup, hp] using ih h

theorem alookup_map_replace_ne {k k2 : String} (o : JObj) (v : JValue)
    (h : k2 ≠ k) :
    alookup k2 (o.map (fun p => if p.1 = k then (k, v) else p)) = alookup k2 o := by
  induction o with
  | nil => simp [alookup]
  | cons p rest ih =>
    by_cases hp : p.1 = k
    · simp [alookup, hp, Ne.symm h, ih]
    · by_cases hp2 : p.1 = k2
      · simp [alookup, hp, hp2, h]
      · simp [alookup, hp, hp2, ih]

theorem alookup_append_single_self {o : JObj} {k : String} (v : JValue)
    (h : alookup k o = none) :
    alookup k (o ++ [(k, v)]) = some v := by
  induction o with
  | nil => simp [alookup]
  | cons p rest ih =>
    by_cases hp : p.1 = k
    · simp [alookup, hp] at h
    · simp only [alookup, hp, if_false] at h
      simpa [alookup, hp] using ih h

theorem alookup_append_single_ne {k k2 : String} (o : JObj) (v : JValue)
    (h : k2 ≠ k) :
    alookup k2 (o ++ [(k, v)]) = alookup k2 o := by
  induction o with
  | nil => simp [alookup, Ne.symm h]
  | cons p rest ih =>
    by_cases hp : p.1 = k2
    · simp [alookup, hp]
    · simp [alookup, hp, ih]

theorem alookup_objInsert_self (o : JObj) (k : String) (v : JValue) :
    alookup k (objInsert o k v) = some v := by
  unfold objInsert
  by_cases h : (alookup k o).isSome = true
  · rw [if_pos h]
    exact alookup_map_replace v h
  · rw [if_neg h]
    exact alookup_append_single_self v (Option.not_isSome_iff_eq_none.1 h)

theorem alookup_objInsert_ne {k k2 : String} (o : JObj) (v : JValue)
    (h : k2 ≠ k) :
    alookup k2 (objInsert o k v) = alookup k2 o := by
  unfold objInsert
  by_cases hs : (alookup k o).isSome = true
  · rw [if_pos hs]
    exact alookup_map_replace_ne o v h
  · rw [if_neg hs]
    exact alookup_append_single_ne o v h

theorem keys_objInsert_present {o : JObj} {k : String} (v : JValue)
    (h : (alookup k o).isSome = true) :
    keys (objInsert o k v) = keys o := by
  unfold objInsert
  rw [if_pos h]
  unfold keys
  rw [List.map_map]
  apply List.map_congr_left
  intro p _
  by_cases hp : p.1 = k
  · simp [hp]
  · simp [hp]

theorem keys_objInsert_absent {o : JObj} {k : String} (v : JValue)
    (h : alookup k o = none) :
    keys (objInsert o k v) = keys o ++ [k] := by
  unfold objInsert
  rw [if_neg (by simp [h])]
  simp [keys]

theorem nodup_keys_objInsert {o : JObj} (k : String) (v : JValue)
    (h : (keys o).Nodup) : (keys (objInsert o k v)).Nodup := by
  by_cases hs : (alookup k o).isSome = true
  · rw [keys_objInsert_present v hs]
    exact h
  · rw [keys_objInsert_absent v (Option.not_isSome_iff_eq_none.1 hs)]
    rw [List.nodup_append]
    refine ⟨h, List.nodup_singleton k, ?_⟩
    intro a ha hb
    rw [List.mem_singleton] at hb
    rw [hb] at ha
    exact (alookup_eq_none_iff k o).1 (Option.not_isSome_iff_eq_none.1 hs) ha

theorem alookup_updateAll_none {k : String} {xs : JObj} (o : JObj)
    (h : alookup k xs = none) :
    alookup k (updateAll o xs) = alookup k o := by
  induction xs generalizing o with
  | nil => rfl
  | cons p rest ih =>
    by_cases hp : p.1 = k
    · simp [alookup, hp] at h
    · simp only [alookup, hp, if_false] at h
      show alookup k (updateAll (objInsert o p.1 p.2) rest) = alookup k o
      rw [ih _ h, alookup_objInsert_ne o p.2 (fun hk => hp hk.symm)]

theorem alookup_updateAll_some {k : String} {xs : JObj} {v : JValue} (o : JObj)
    (hnd : (keys xs).Nodup) (h : alookup k xs = some v) :
    alookup k (updateAll o xs) = some v := by
  induction xs generalizing o with
  | nil => simp [alookup] at h
  | cons p rest ih =>
    simp only [keys, List.map_cons, List.nodup_cons] at hnd
    by_cases hp : p.1 = k
    · simp only [alookup, hp, if_true] at h
      have hrest : alookup k rest = none := by
        rw [alookup_eq_none_iff]
        rw [← hp]
        exact hnd.1
      show alookup k (updateAll (objInsert o p.1 p.2) rest) = some v
      rw [alookup_updateAll_none _ hrest, hp, alookup_objInsert_self]
      exact h
    · simp only [alookup, hp, if_false] at h
      exact ih _ hnd.2 h

theorem nodup_keys_updateAll {o : JObj} (xs : JObj)
    (h : (keys o).Nodup) : (keys (updateAll o xs)).Nodup := by
  induction xs generalizing o with
  | nil => exact h
  | cons p rest ih =>
    exact ih (nodup_keys_objInsert p.1 p.2 h)

/-! ## Characterisations of the embedded operations -/

theorem ensureField_obj_spec (k : String) (dflt : JValue) (o : JObj) :
    ∃ r : JObj, ensureField k dflt (.obj o) = .ok (.obj r) ∧
      alookup k r = some ((alookup k o).getD dflt) ∧
      (∀ k2, k2 ≠ k → alookup k2 r = alookup k2 o) ∧
      (∀ k2 v, alookup k2 o = some v → alookup k2 r = some v) ∧
      ((keys o).Nodup → (keys r).Nodup) := by
  by_cases h : (alookup k o).isSome = true
  · refine ⟨o, ?_, ?_, fun k2 _ => rfl, fun k2 v hv => hv, fun hn => hn⟩
    · simp [ensureField, pyContains, h]
    · obtain ⟨v, hv⟩ := Option.isSome_iff_exists.1 h
      rw [hv]
      rfl
  · have hnone := Option.not_isSome_iff_eq_none.1 h
    refine ⟨objInsert o k dflt, ?_, ?_, ?_, ?_, ?_⟩
    · simp [ensureField, pyContains, pySetItem, h]
    · rw [alookup_objInsert_self, hnone]
      rfl
    · intro k2 hk2
      exact alookup_objInsert_ne o dflt hk2
    · intro k2 v hv
      by_cases hk2 : k2 = k
      · rw [hk2] at hv
        rw [hv] at hnone
        cases hnone
      · rw [alookup_objInsert_ne o dflt hk2]
        exact hv
    · intro hn
      exact nodup_keys_objInsert k dflt hn

theorem load_valid_obj (o : JObj) :
    ∃ r : JObj, load_alerts_from_file (.valid (.obj o)) = .ok (.obj r) ∧
      alookup "alerts_by_time" r = some ((alookup "alerts_by_time" o).getD (.obj [])) ∧
      alookup "active_alerts" r = some ((alookup "active_alerts" o).getD (.arr [])) ∧
      alookup "read_alerts" r = some ((alookup "read_alerts" o).getD (.arr [])) ∧
      (∀ k v, alookup k o = some v → alookup k r = some v) ∧
      (∀ k, k ≠ "alerts_by_time" → k ≠ "active_alerts" → k ≠ "read_alerts" →
        alookup k r = alookup k o) ∧
      ((keys o).Nodup → (keys r).Nodup) := by
  obtain ⟨r1, e1, l1self, l1ne, l1pres, l1nd⟩ :=
    ensureField_obj_spec "alerts_by_time" (.obj []) o
  obtain ⟨r2, e2, l2self, l2ne, l2pres, l2nd⟩ :=
    ensureField_obj_spec "active_alerts" (.arr []) r1
  obtain ⟨r3, e3, l3self, l3ne, l3pres, l3nd⟩ :=
    ensureField_obj_spec "read_alerts" (.arr []) r2
  refine ⟨r3, ?_, ?_, ?_, ?_, ?_, ?_, ?_⟩
  · simp only [load_alerts_from_file, e1, e2, e3]
  · rw [l3ne _ (by decide), l2ne _ (by decide), l1self]
  · rw [l3ne _ (by decide), l2self, l1ne _ (by decide)]
  · rw [l3self, l2ne _ (by decide), l1ne _ (by decide)]
  · intro k v hv
    exact l3pres _ _ (l2pres _ _ (l1pres _ _ hv))
  · intro k hk1 hk2 hk3
    rw [l3ne _ hk3, l2ne _ hk2, l1ne _ hk1]
  · intro hn
    exact l3nd (l2nd (l1nd hn))

theorem mergeLoop_ok (items : JObj) :
    ∀ (e eabt : JObj), alookup "alerts_by_time" e = some (.obj eabt) →
    ∃ e4 : JObj, mergeLoop items e = .ok e4 ∧
      alookup "alerts_by_time" e4 = some (.obj (updateAll eabt items)) ∧
      (∀ k, k ≠ "alerts_by_time" → alookup k e4 = alookup k e) ∧
      keys e4 = keys e := by
  induction items with
  | nil =>
    intro e eabt he
    exact ⟨e, rfl, by simpa [updateAll] using he, fun k _ => rfl, rfl⟩
  | cons p rest ih =>
    intro e eabt he
    obtain ⟨hour, info⟩ := p
    have hins : alookup "alerts_by_time"
        (objInsert e "alerts_by_time" (.obj (objInsert eabt hour info))) =
        some (.obj (objInsert eabt hour info)) :=
      alookup_objInsert_self e "alerts_by_time" (.obj (objInsert eabt hour info))
    obtain ⟨e4, hml, habt, hne, hkeys⟩ := ih _ _ hins
    refine ⟨e4, ?_, ?_, ?_, ?_⟩
    · simp only [mergeLoop, he]
      exact hml
    · rw [habt]
      rfl
    · intro k hk
      rw [hne k hk, alookup_objInsert_ne _ _ hk]
    · rw [hkeys, keys_objInsert_present _ (by rw [he]; rfl)]

theorem save_merge_doc_spec (m e mabt dabt : JObj)
    (hm : alookup "alerts_by_time" m = some (.obj mabt))
    (hd : alookup "alerts_by_time" e = some (.obj dabt) ∨
          (alookup "alerts_by_time" e = none ∧ dabt = [])) :
    ∃ w : JObj, save_merge_doc (.obj m) (.obj e) = .ok (.obj w) ∧
      alookup "active_alerts" w = some (getD m "active_alerts" (.arr [])) ∧
      alookup "read_alerts" w = some (getD m "read_alerts" (.arr [])) ∧
      alookup "alerts_by_time" w = some (.obj (updateAll dabt mabt)) ∧
      (∀ k, k ≠ "active_alerts" → k ≠ "read_alerts" → k ≠ "alerts_by_time" →
        alookup k w = alookup k e) ∧
      ((keys e).Nodup → (keys w).Nodup) := by
  have habt2 : alookup "alerts_by_time"
      (objInsert (objInsert e "active_alerts" (getD m "active_alerts" (.arr [])))
        "read_alerts" (getD m "read_alerts" (.arr []))) = alookup "alerts_by_time" e := by
    rw [alookup_objInsert_ne _ _ (by decide), alookup_objInsert_ne _ _ (by decide)]
  have hact2 : alookup "active_alerts"
      (objInsert (objInsert e "active_alerts" (getD m "active_alerts" (.arr [])))
        "read_alerts" (getD m "read_alerts" (.arr []))) =
      some (getD m "active_alerts" (.arr [])) := by
    rw [alookup_objInsert_ne _ _ (by decide), alookup_objInsert_self]
  have hread2 : alookup "read_alerts"
      (objInsert (objInsert e "active_alerts" (getD m "active_alerts" (.arr [])))
        "read_alerts" (getD m "read_alerts" (.arr []))) =
      some (getD m "read_alerts" (.arr [])) :=
    alookup_objInsert_self _ _ _
  have hnd2 : (keys e).Nodup → (keys
      (objInsert (objInsert e "active_alerts" (getD m "active_alerts" (.arr [])))
        "read_alerts" (getD m "read_alerts" (.arr [])))).Nodup :=
    fun hn => nodup_keys_objInsert _ _ (nodup_keys_objInsert _ _ hn)
  rcases hd with h | h
  · obtain ⟨e4, hml, habt4, hne4, hkeys4⟩ :=
      mergeLoop_ok mabt _ dabt (habt2.trans h)
    refine ⟨e4, ?_, ?_, ?_, habt4, ?_, ?_⟩
    · simp only [save_merge_doc, habt2, h, hm, hml]
    · rw [hne4 _ (by decide)]
      exact hact2
    · rw [hne4 _ (by decide)]
      exact hread2
    · intro k hk1 hk2 hk3
      rw [hne4 _ hk3, alookup_objInsert_ne _ _ hk2, alookup_objInsert_ne _ _ hk1]
    · intro hn
      rw [hkeys4]
      exact hnd2 hn
  · obtain ⟨habt_none, hdnil⟩ := h
    subst hdnil
    have hins : alookup "alerts_by_time"
        (objInsert (objInsert (objInsert e "active_alerts" (getD m "active_alerts" (.arr [])))
          "read_alerts" (getD m "read_alerts" (.arr []))) "alerts_by_time" (.obj [])) =
        some (.obj []) :=
      alookup_objInsert_self _ _ _
    obtain ⟨e4, hml, habt4, hne4, hkeys4⟩ := mergeLoop_ok mabt _ [] hins
    refine ⟨e4, ?_, ?_, ?_, habt4, ?_, ?_⟩
    · simp only [save_merge_doc, habt2, habt_none, hm, hml]
    · rw [hne4 _ (by decide), alookup_objInsert_ne _ _ (by decide)]
      exact hact2
    · rw [hne4 _ (by decide), alookup_objInsert_ne _ _ (by decide)]
      exact hread2
    · intro k hk1 hk2 hk3
      rw [hne4 _ hk3, alookup_objInsert_ne _ _ hk3, alookup_objInsert_ne _ _ hk2,
        alookup_objInsert_ne _ _ hk1]
    · intro hn
      rw [hkeys4]
      exact nodup_keys_objInsert _ _ (hnd2 hn)

theorem save_to_file_spec (m e mabt dabt : JObj) (fs : FileState)
    (hfs : (match fs with | FileState.valid v => v | _ => emptyDoc) = .obj e)
    (hm : alookup "alerts_by_time" m = some (.obj mabt))
    (hd : alookup "alerts_by_time" e = some (.obj dabt) ∨
          (alookup "alerts_by_time" e = none ∧ dabt = [])) :
    ∃ w : JObj, save_alerts_to_file true (.obj m) fs = .ok (.obj (updateAll m w), .valid (.obj w)) ∧
      alookup "active_alerts" w = some (getD m "active_alerts" (.arr [])) ∧
      alookup "read_alerts" w = some (getD m "read_alerts" (.arr [])) ∧
      alookup "alerts_by_time" w = some (.obj (updateAll dabt mabt)) ∧
      (∀ k, k ≠ "active_alerts" → k ≠ "read_alerts" → k ≠ "alerts_by_time" →
        alookup k w = alookup k e) ∧
      ((keys e).Nodup → (keys w).Nodup) := by
  obtain ⟨w, hw, hact, hread, habt, hother, hnd⟩ := save_merge_doc_spec m e mabt dabt hm hd
  refine ⟨w, ?_, hact, hread, habt, hother, hnd⟩
  simp only [save_alerts_to_file, save_merge, hfs, hw, if_true]

theorem load_spec_general (e : JObj) (fs : FileState)
    (hfs : (match fs with | FileState.valid v => v | _ => emptyDoc) = .obj e) :
    ∃ r : JObj, load_alerts_from_file fs = .ok (.obj r) ∧
      alookup "alerts_by_time" r = some ((alookup "alerts_by_time" e).getD (.obj [])) ∧
      alookup "active_alerts" r = some ((alookup "active_alerts" e).getD (.arr [])) ∧
      alookup "read_alerts" r = some ((alookup "read_alerts" e).getD (.arr [])) ∧
      (∀ k v, alookup k e = some v → alookup k r = some v) ∧
      (∀ k, k ≠ "alerts_by_time" → k ≠ "active_alerts" → k ≠ "read_alerts" →
        alookup k r = alookup k e) ∧
      ((keys e).Nodup → (keys r).Nodup) := by
  cases fs with
  | missing =>
    have he : JValue.obj [("active_alerts", .arr []), ("read_alerts", .arr []),
        ("alerts_by_time", .obj [])] = .obj e := hfs
    injection he with he2
    rw [← he2]
    exact ⟨_, rfl, rfl, rfl, rfl, fun k v h => h, fun k _ _ _ => rfl, id⟩
  | corrupt =>
    have he : JValue.obj [("active_alerts", .arr []), ("read_alerts", .arr []),
        ("alerts_by_time", .obj [])] = .obj e := hfs
    injection he with he2
    rw [← he2]
    exact ⟨_, rfl, rfl, rfl, rfl, fun k v h => h, fun k _ _ _ => rfl, id⟩
  | valid data =>
    have he : data = .obj e := hfs
    rw [he]
    exact load_valid_obj e

theorem add_alert_spec (hour : String) (p v msg : JValue) (e dabt : JObj) (fs : FileState)
    (hfs : (match fs with | FileState.valid v => v | _ => emptyDoc) = .obj e)
    (hd : alookup "alerts_by_time" e = some (.obj dabt) ∨
          (alookup "alerts_by_time" e = none ∧ dabt = []))
    (hnd : (keys dabt).Nodup) (hne : (keys e).Nodup) :
    ∃ nm w wabt : JObj,
      add_alert_by_time hour p v msg true fs = .ok (.obj nm, .valid (.obj w)) ∧
      alookup "alerts_by_time" w = some (.obj wabt) ∧
      alookup hour wabt = some (alertRecord p v msg) ∧
      (∀ k, k ≠ hour → alookup k wabt = alookup k dabt) ∧
      (keys wabt).Nodup ∧
      (keys w).Nodup ∧
      (∀ k vv, alookup k wabt = some vv →
        vv = alertRecord p v msg ∨ alookup k dabt = some vv) := by
  obtain ⟨r, hload, habtR, hactR, hreadR, hpres, hneR, hndR⟩ := load_spec_general e fs hfs
  have habtval : alookup "alerts_by_time" r = some (.obj dabt) := by
    rcases hd with h | ⟨h, hnil⟩
    · rw [habtR, h]
      rfl
    · rw [habtR, h, hnil]
      rfl
  have hm2 : alookup "alerts_by_time"
      (objInsert r "alerts_by_time" (.obj (objInsert dabt hour (alertRecord p v msg)))) =
      some (.obj (objInsert dabt hour (alertRecord p v msg))) :=
    alookup_objInsert_self _ _ _
  obtain ⟨w, hsave, hact, hread, habtW, hother, hndW⟩ :=
    save_to_file_spec (objInsert r "alerts_by_time" (.obj (objInsert dabt hour (alertRecord p v msg))))
      e (objInsert dabt hour (alertRecord p v msg)) dabt fs hfs hm2 hd
  have hndins : (keys (objInsert dabt hour (alertRecord p v msg))).Nodup :=
    nodup_keys_objInsert _ _ hnd
  have hframe : ∀ k, k ≠ hour →
      alookup k (updateAll dabt (objInsert dabt hour (alertRecord p v msg))) =
      alookup k dabt := by
    intro k hk
    cases h2 : alookup k dabt with
    | none =>
      have h3 : alookup k (objInsert dabt hour (alertRecord p v msg)) = none := by
        rw [alookup_objInsert_ne _ _ hk]
        exact h2
      rw [alookup_updateAll_none dabt h3]
      exact h2
    | some vv =>
      have h3 : alookup k (objInsert dabt hour (alertRecord p v msg)) = some vv := by
        rw [alookup_objInsert_ne _ _ hk]
        exact h2
      rw [alookup_updateAll_some dabt hndins h3]
  refine ⟨updateAll (objInsert r "alerts_by_time"
      (.obj (objInsert dabt hour (alertRecord p v msg)))) w, w,
    updateAll dabt (objInsert dabt hour (alertRecord p v msg)), ?_, habtW, ?_,
    hframe, ?_, hndW hne, ?_⟩
  · simp only [add_alert_by_time, hload, pyIndex, habtval, pySetItem]
    exact hsave
  · exact alookup_updateAll_some dabt hndins (alookup_objInsert_self _ _ _)
  · exact nodup_keys_updateAll _ hnd
  · intro k vv hkv
    by_cases hk : k = hour
    · rw [hk] at hkv
      rw [alookup_updateAll_some dabt hndins (alookup_objInsert_self _ _ _)] at hkv
      injection hkv with h3
      exact Or.inl h3.symm
    · right
      rw [← hframe k hk]
      exact hkv

theorem unreadLoop_spec (entries : JObj)
    (hrec : ∀ p ∈ entries, ∃ o : JObj, p.2 = .obj o ∧
      (alookup "read" o = none ∨ alookup "read" o = some (.bool false) ∨
       alookup "read" o = some (.bool true))) :
    unreadLoop entries = .ok ((entries.filter (fun p =>
      match p.2 with
      | .obj o =>
        match alookup "read" o with
        | some (.bool true) => false
        | _ => true
      | _ => false)).map Prod.snd) := by
  induction entries with
  | nil => rfl
  | cons q rest ih =>
    obtain ⟨o, ho, htri⟩ := hrec q (List.mem_cons_self q rest)
    have hrest := ih (fun p hp => hrec p (List.mem_cons_of_mem q hp))
    obtain ⟨k, a⟩ := q
    simp only at ho
    subst ho
    rcases htri with h | h | h
    · simp [unreadLoop, pyGetD, getD, h, pyTruthy, hrest, List.filter_cons]
    · simp [unreadLoop, pyGetD, getD, h, pyTruthy, hrest, List.filter_cons]
    · simp [unreadLoop, pyGetD, getD, h, pyTruthy, hrest, List.filter_cons]

/-! ## Claim theorems -/

/-- C1 counterexample: the claim says that after writing, the in-memory
document equals the merged document written to disk, for every in-memory
document.  With the backing file missing and an in-memory document carrying
an extra top-level field "extra", save succeeds and writes the merged
document, but the updated in-memory document still holds "extra" while the
written document does not, so the two documents differ. -/
theorem save_memory_extra_field_cex :
    save_alerts_to_file true
      (.obj [("active_alerts", .arr []), ("read_alerts", .arr []),
             ("alerts_by_time", .obj []), ("extra", .num 1)]) .missing =
      .ok (.obj [("active_alerts", .arr []), ("read_alerts", .arr []),
                 ("alerts_by_time", .obj []), ("extra", .num 1)],
           .valid (.obj [("active_alerts", .arr []), ("read_alerts", .arr []),
                         ("alerts_by_time", .obj [])])) ∧
    alookup "extra" [("active_alerts", .arr []), ("read_alerts", .arr []),
        ("alerts_by_time", .obj []), ("extra", .num 1)] = some (.num 1) ∧
    alookup "extra" [("active_alerts", .arr []), ("read_alerts", .arr []),
        ("alerts_by_time", .obj [])] = none :=
  ⟨rfl, rfl, rfl⟩

/-- C1 (amended): for every in-memory document with the three alert fields
and every backing-file state that is missing, corrupt, or a parsed JSON
object (with duplicate-free keys), save succeeds and writes a merged
document whose `active_alerts` and `read_alerts` are the in-memory values,
whose `alerts_by_time` maps every in-memory hour key to the in-memory
record and every other hour key to the on-disk record; afterwards the
in-memory document is the old in-memory document updated key-by-key with
the merged document (equal to the merged document only when the in-memory
document has no extra top-level fields). -/
theorem save_merges_and_updates_memory
    (m mabt dabt e : JObj) (fs : FileState) (av rv : JValue)
    (hfs : (match fs with | FileState.valid v => v | _ => emptyDoc) = .obj e)
    (hm : alookup "alerts_by_time" m = some (.obj mabt))
    (ha : alookup "active_alerts" m = some av)
    (hr : alookup "read_alerts" m = some rv)
    (hd : alookup "alerts_by_time" e = some (.obj dabt) ∨
          (alookup "alerts_by_time" e = none ∧ dabt = []))
    (hnm : (keys mabt).Nodup) (hne : (keys e).Nodup) :
    ∃ nm w wabt : JObj,
      save_alerts_to_file true (.obj m) fs = .ok (.obj nm, .valid (.obj w)) ∧
      alookup "active_alerts" w = some av ∧
      alookup "read_alerts" w = some rv ∧
      alookup "alerts_by_time" w = some (.obj wabt) ∧
      (∀ k v, alookup k mabt = some v → alookup k wabt = some v) ∧
      (∀ k, alookup k mabt = none → alookup k wabt = alookup k dabt) ∧
      (∀ k v, alookup k w = some v → alookup k nm = some v) ∧
      (∀ k, alookup k w = none → alookup k nm = alookup k m) := by
  obtain ⟨w, hw, hact, hread, habt, hother, hnd⟩ :=
    save_to_file_spec m e mabt dabt fs hfs hm hd
  have hndw : (keys w).Nodup := hnd hne
  refine ⟨updateAll m w, w, updateAll dabt mabt, hw, ?_, ?_, habt, ?_, ?_, ?_, ?_⟩
  · rw [hact]
    simp only [getD, ha, Option.getD_some]
  · rw [hread]
    simp only [getD, hr, Option.getD_some]
  · intro k v hkv
    exact alookup_updateAll_some dabt hnm hkv
  · intro k hk
    exact alookup_updateAll_none dabt hk
  · intro k v hkv
    exact alookup_updateAll_some m hndw hkv
  · intro k hk
    exact alookup_updateAll_none m hk

/-- C1 witness: the amended theorem applied at a concrete input (a single
alert at 07:00 saved against a missing file). -/
theorem save_merges_and_updates_memory_witness :
    save_alerts_to_file true
      (.obj [("active_alerts", .arr []), ("read_alerts", .arr []),
             ("alerts_by_time", .obj [("07:00", .str "rec")])]) .missing ≠ .error () := by
  obtain ⟨nm, w, wabt, hw, -⟩ :=
    save_merges_and_updates_memory
      [("active_alerts", .arr []), ("read_alerts", .arr []),
       ("alerts_by_time", .obj [("07:00", .str "rec")])]
      [("07:00", .str "rec")] []
      [("active_alerts", .arr []), ("read_alerts", .arr []), ("alerts_by_time", .obj [])]
      .missing (.arr []) (.arr []) rfl rfl rfl rfl (Or.inl rfl) (by decide) (by decide)
  rw [hw]
  simp

/-- C2 counterexample: the claim says load never fails for any file
content.  A file whose content is the valid JSON value `3` parses, and the
membership test `"alerts_by_time" not in 3` then raises an uncaught
`TypeError`, so load fails instead of substituting the zero-value
document. -/
theorem load_crashes_on_nonobject_json :
    load_alerts_from_file (.valid (.num 3)) = .error () := rfl

/-- C2 (amended): load is total and normalising on every file state whose
content is missing, unparsable, or a parsed JSON object: a missing or
corrupt file yields the zero-value document, and a parsed object is
returned with each absent top-level alert field filled with its empty
default, all present fields (including unexpected extras) preserved
unchanged, and all three alert fields present afterwards.  Valid
non-object JSON content instead raises an uncaught TypeError. -/
theorem load_total_on_parsable (o : JObj) :
    load_alerts_from_file .missing = .ok emptyDoc ∧
    load_alerts_from_file .corrupt = .ok emptyDoc ∧
    ∃ r : JObj, load_alerts_from_file (.valid (.obj o)) = .ok (.obj r) ∧
      (alookup "active_alerts" r).isSome = true ∧
      (alookup "read_alerts" r).isSome = true ∧
      (alookup "alerts_by_time" r).isSome = true ∧
      (alookup "active_alerts" o = none → alookup "active_alerts" r = some (.arr [])) ∧
      (alookup "read_alerts" o = none → alookup "read_alerts" r = some (.arr [])) ∧
      (alookup "alerts_by_time" o = none → alookup "alerts_by_time" r = some (.obj [])) ∧
      (∀ k v, alookup k o = some v → alookup k r = some v) := by
  obtain ⟨r, hld, habt, hact, hread, hpres, hne, hnd⟩ := load_valid_obj o
  refine ⟨rfl, rfl, r, hld, ?_, ?_, ?_, ?_, ?_, ?_, hpres⟩
  · rw [hact]
    rfl
  · rw [hread]
    rfl
  · rw [habt]
    rfl
  · intro h
    rw [hact, h]
    rfl
  · intro h
    rw [hread, h]
    rfl
  · intro h
    rw [habt, h]
    rfl

/-- C2 witness: the amended theorem applied at a concrete parsed object
missing all three fields: load fills them in and keeps the extra field. -/
theorem load_total_on_parsable_witness :
    load_alerts_from_file (.valid (.obj [("x", .num 1)])) ≠ .error () := by
  obtain ⟨-, -, r, hr, -⟩ := load_total_on_parsable [("x", .num 1)]
  rw [hr]
  simp

/-- C3: addAlertByTime reloads the document from the file (the previous
in-memory document is not consulted), unconditionally overwrites the
record at the given hour with a fresh record whose read flag is false
(even when the previous record at that hour was marked read), and saves.
Calling it twice at the same hour leaves exactly one entry at that hour,
holding the second payload with read = false, while all other hours keep
the values produced by the first call.  Stated for every backing file
whose content is missing, unparsable, or a parsed JSON object whose
`alerts_by_time`, if present, is an object with duplicate-free keys. -/
theorem add_alert_overwrites_hour
    (hour : String) (p1 v1 m1 p2 v2 m2 : JValue) (e dabt : JObj) (fs : FileState)
    (hfs : (match fs with | FileState.valid v => v | _ => emptyDoc) = .obj e)
    (hd : alookup "alerts_by_time" e = some (.obj dabt) ∨
          (alookup "alerts_by_time" e = none ∧ dabt = []))
    (hnd : (keys dabt).Nodup) (hne : (keys e).Nodup) :
    ∃ nm1 w1 wabt1 nm2 w2 wabt2 : JObj,
      add_alert_by_time hour p1 v1 m1 true fs = .ok (.obj nm1, .valid (.obj w1)) ∧
      alookup "alerts_by_time" w1 = some (.obj wabt1) ∧
      alookup hour wabt1 =
        some (.obj [("Parameter", p1), ("Value", v1), ("Message", m1), ("read", .bool false)]) ∧
      add_alert_by_time hour p2 v2 m2 true (.valid (.obj w1)) = .ok (.obj nm2, .valid (.obj w2)) ∧
      alookup "alerts_by_time" w2 = some (.obj wabt2) ∧
      alookup hour wabt2 =
        some (.obj [("Parameter", p2), ("Value", v2), ("Message", m2), ("read", .bool false)]) ∧
      (keys wabt2).count hour = 1 ∧
      (∀ k, k ≠ hour → alookup k wabt2 = alookup k wabt1) := by
  obtain ⟨nm1, w1, wabt1, hadd1, habt1, hhour1, hframe1, hndabt1, hndw1, hsrc1⟩ :=
    add_alert_spec hour p1 v1 m1 e dabt fs hfs hd hnd hne
  obtain ⟨nm2, w2, wabt2, hadd2, habt2, hhour2, hframe2, hndabt2, hndw2, hsrc2⟩ :=
    add_alert_spec hour p2 v2 m2 w1 wabt1 (.valid (.obj w1)) rfl (Or.inl habt1) hndabt1 hndw1
  exact ⟨nm1, w1, wabt1, nm2, w2, wabt2, hadd1, habt1, hhour1, hadd2, habt2, hhour2,
    List.count_eq_one_of_mem hndabt2 (alookup_mem_keys hhour2), hframe2⟩

/-- C3 witness: the theorem applied against a backing file that already
holds a record at 07:00 marked read; the two adds succeed. -/
theorem add_alert_overwrites_hour_witness :
    add_alert_by_time "07:00" (.str "Temperature") (.num 30) (.str "Too hot") true
      (.valid (.obj [("active_alerts", .arr []), ("read_alerts", .arr []),
        ("alerts_by_time", .obj [("07:00", .obj [("Parameter", .str "T"),
          ("Value", .num 1), ("Message", .str "old"), ("read", .bool true)])])])) ≠
      .error () := by
  obtain ⟨nm1, w1, wabt1, nm2, w2, wabt2, h1, -⟩ :=
    add_alert_overwrites_hour "07:00" (.str "Temperature") (.num 30) (.str "Too hot")
      (.str "Temperature") (.num 31) (.str "Hotter")
      [("active_alerts", .arr []), ("read_alerts", .arr []),
       ("alerts_by_time", .obj [("07:00", .obj [("Parameter", .str "T"),
         ("Value", .num 1), ("Message", .str "old"), ("read", .bool true)])])]
      [("07:00", .obj [("Parameter", .str "T"), ("Value", .num 1),
        ("Message", .str "old"), ("read", .bool true)])]
      (.valid (.obj [("active_alerts", .arr []), ("read_alerts", .arr []),
        ("alerts_by_time", .obj [("07:00", .obj [("Parameter", .str "T"),
          ("Value", .num 1), ("Message", .str "old"), ("read", .bool true)])])]))
      rfl (Or.inl rfl) (by decide) (by decide)
  rw [h1]
  simp

/-- C4: round-trip.  When save succeeds against any backing-file state
(missing, unparsable, or a parsed JSON object) a subsequent load of the
written file succeeds and yields a document whose `alerts_by_time` maps
every hour key of the saved document to exactly the record it wrote. -/
theorem save_load_roundtrip
    (m mabt dabt e : JObj) (fs : FileState)
    (hfs : (match fs with | FileState.valid v => v | _ => emptyDoc) = .obj e)
    (hm : alookup "alerts_by_time" m = some (.obj mabt))
    (hd : alookup "alerts_by_time" e = some (.obj dabt) ∨
          (alookup "alerts_by_time" e = none ∧ dabt = []))
    (hnm : (keys mabt).Nodup) :
    ∃ nm w r wabt : JObj,
      save_alerts_to_file true (.obj m) fs = .ok (.obj nm, .valid (.obj w)) ∧
      load_alerts_from_file (.valid (.obj w)) = .ok (.obj r) ∧
      alookup "alerts_by_time" r = some (.obj wabt) ∧
      (∀ k v, alookup k mabt = some v → alookup k wabt = some v) := by
  obtain ⟨w, hw, hact, hread, habt, hother, hnd⟩ :=
    save_to_file_spec m e mabt dabt fs hfs hm hd
  obtain ⟨r, hld, habtR, -, -, -, -, -⟩ := load_valid_obj w
  refine ⟨updateAll m w, w, r, updateAll dabt mabt, hw, hld, ?_, ?_⟩
  · rw [habtR, habt]
    rfl
  · intro k v hkv
    exact alookup_updateAll_some dabt hnm hkv

/-- C4 witness: the theorem applied at a concrete document with one alert
saved over a missing file. -/
theorem save_load_roundtrip_witness :
    save_alerts_to_file true
      (.obj [("active_alerts", .arr []), ("read_alerts", .arr []),
             ("alerts_by_time", .obj [("07:00", .str "rec")])]) .missing ≠ .error () := by
  obtain ⟨nm, w, r, wabt, hw, -⟩ :=
    save_load_roundtrip
      [("active_alerts", .arr []), ("read_alerts", .arr []),
       ("alerts_by_time", .obj [("07:00", .str "rec")])]
      [("07:00", .str "rec")] []
      [("active_alerts", .arr []), ("read_alerts", .arr []), ("alerts_by_time", .obj [])]
      .missing rfl rfl (Or.inl rfl) (by decide)
  rw [hw]
  simp

/-- C5: when the merge phase succeeds but the file write itself fails with
an I/O error, the handler only prints a diagnostic: the caller sees a
normal return, the in-memory document is exactly what it was before the
save, and the backing file is untouched. -/
theorem save_write_failure_noop (mem : JValue) (fs : FileState) (w : JValue)
    (h : save_merge mem fs = .ok w) :
    save_alerts_to_file false mem fs = .ok (mem, fs) := by
  simp [save_alerts_to_file, h]

/-- C5 witness: a failing write of the zero-value document over a missing
file returns normally with the in-memory document unchanged. -/
theorem save_write_failure_noop_witness :
    save_alerts_to_file false emptyDoc .missing = .ok (emptyDoc, .missing) :=
  save_write_failure_noop emptyDoc .missing emptyDoc rfl

/-- C6: getUnreadAlerts loads from the file and returns exactly the records
of `alerts_by_time` whose `read` field is absent or false, excluding those
with `read` true, in the insertion order of the map (a filter of the value
sequence, not a sort).  Stated for persisted documents whose records are
objects with a boolean-or-absent `read` field. -/
theorem get_unread_alerts_filters (d entries : JObj)
    (hd : alookup "alerts_by_time" d = some (.obj entries))
    (hrec : ∀ p ∈ entries, ∃ o : JObj, p.2 = .obj o ∧
      (alookup "read" o = none ∨ alookup "read" o = some (.bool false) ∨
       alookup "read" o = some (.bool true))) :
    get_unread_alerts (.valid (.obj d)) =
      .ok ((entries.filter (fun p =>
        match p.2 with
        | .obj o =>
          match alookup "read" o with
          | some (.bool true) => false
          | _ => true
        | _ => false)).map Prod.snd) := by
  obtain ⟨r, hld, habtR, -, -, -, -, -⟩ := load_valid_obj d
  have habtval : alookup "alerts_by_time" r = some (.obj entries) := by
    rw [habtR, hd]
    rfl
  simp only [get_unread_alerts, hld, pyIndex, habtval]
  exact unreadLoop_spec entries hrec

/-- C6 witness: the theorem applied at the document from the spec example,
with record A unread and record B read; only A is returned. -/
theorem get_unread_alerts_filters_witness :
    get_unread_alerts (.valid (.obj [("alerts_by_time",
      .obj [("A", .obj [("read", .bool false)]), ("B", .obj [("read", .bool true)])])])) =
      .ok [.obj [("read", .bool false)]] := by
  have hrec : ∀ p ∈ ([("A", JValue.obj [("read", .bool false)]),
      ("B", JValue.obj [("read", .bool true)])] : JObj), ∃ o : JObj, p.2 = .obj o ∧
      (alookup "read" o = none ∨ alookup "read" o = some (.bool false) ∨
       alookup "read" o = some (.bool true)) := by
    intro p hp
    rcases List.mem_cons.mp hp with rfl | hp2
    · exact ⟨[("read", .bool false)], rfl, Or.inr (Or.inl rfl)⟩
    · rcases List.mem_cons.mp hp2 with rfl | h3
      · exact ⟨[("read", .bool true)], rfl, Or.inr (Or.inr rfl)⟩
      · cases h3
  exact get_unread_alerts_filters
    [("alerts_by_time", .obj [("A", .obj [("read", .bool false)]),
      ("B", .obj [("read", .bool true)])])]
    [("A", .obj [("read", .bool false)]), ("B", .obj [("read", .bool true)])]
    rfl hrec

/-- C7 counterexample: the claim says that after every operation every
value object in `alerts_by_time` has the four record fields.  Load performs
no record validation: loading a document holding the empty record at 07:00
succeeds and leaves that record, which has none of the four fields, in the
process-wide document. -/
theorem load_keeps_malformed_record :
    load_alerts_from_file (.valid (.obj [("active_alerts", .arr []), ("read_alerts", .arr []),
        ("alerts_by_time", .obj [("07:00", .obj [])])])) =
      .ok (.obj [("active_alerts", .arr []), ("read_alerts", .arr []),
        ("alerts_by_time", .obj [("07:00", .obj [])])]) ∧
    hasRecordFields (.obj []) = false :=
  ⟨rfl, rfl⟩

/-- C7 (amended): the record-shape invariant is preserved rather than
unconditional: records created or overwritten by addAlertByTime always
carry the four fields Parameter, Value, Message, read with read = false,
and when every record already on disk has the four fields, every record in
the document written by the add is well-formed; load itself never
validates record shape, so the invariant holds after load only when it
held of the file content. -/
theorem alert_records_wellformed_after_add
    (hour : String) (p v msg : JValue) (e dabt : JObj) (fs : FileState)
    (hfs : (match fs with | FileState.valid v => v | _ => emptyDoc) = .obj e)
    (hd : alookup "alerts_by_time" e = some (.obj dabt) ∨
          (alookup "alerts_by_time" e = none ∧ dabt = []))
    (hnd : (keys dabt).Nodup) (hne : (keys e).Nodup)
    (hwf : ∀ k rec, alookup k dabt = some rec → hasRecordFields rec = true) :
    ∃ nm w wabt : JObj,
      add_alert_by_time hour p v msg true fs = .ok (.obj nm, .valid (.obj w)) ∧
      alookup "alerts_by_time" w = some (.obj wabt) ∧
      alookup hour wabt =
        some (.obj [("Parameter", p), ("Value", v), ("Message", msg), ("read", .bool false)]) ∧
      (∀ k rec, alookup k wabt = some rec → hasRecordFields rec = true) := by
  obtain ⟨nm, w, wabt, hadd, habt, hhour, hframe, hndabt, hndw, hsrc⟩ :=
    add_alert_spec hour p v msg e dabt fs hfs hd hnd hne
  refine ⟨nm, w, wabt, hadd, habt, hhour, ?_⟩
  intro k rec hk
  rcases hsrc k rec hk with h | h
  · rw [h]
    rfl
  · exact hwf k rec h

/-- C7 witness: the amended theorem applied against a missing backing
file; the freshly added record carries all four fields. -/
theorem alert_records_wellformed_after_add_witness :
    add_alert_by_time "08:00" (.str "CO2") (.num 800) (.str "High") true .missing ≠
      .error () := by
  obtain ⟨nm, w, wabt, hadd, -⟩ :=
    alert_records_wellformed_after_add "08:00" (.str "CO2") (.num 800) (.str "High")
      [("active_alerts", .arr []), ("read_alerts", .arr []), ("alerts_by_time", .obj [])]
      [] .missing rfl (Or.inl rfl) (by decide) (by decide)
      (fun k rec hk => by cases hk)
  rw [hadd]
  simp

/-- C8: frame property of addAlertByTime.  For a backing file whose
`alerts_by_time` holds records at hours other than the one being added,
adding a new hour yields an on-disk map that keeps every previous key with
its record unchanged and additionally maps the new hour to the fresh
record. -/
theorem add_alert_preserves_other_hours
    (hour : String) (p v msg : JValue) (d dabt : JObj)
    (hd : alookup "alerts_by_time" d = some (.obj dabt))
    (hnew : alookup hour dabt = none)
    (hnd : (keys dabt).Nodup) (hne : (keys d).Nodup) :
    ∃ nm w wabt : JObj,
      add_alert_by_time hour p v msg true (.valid (.obj d)) = .ok (.obj nm, .valid (.obj w)) ∧
      alookup "alerts_by_time" w = some (.obj wabt) ∧
      (∀ k rec, alookup k dabt = some rec → alookup k wabt = some rec) ∧
      alookup hour wabt =
        some (.obj [("Parameter", p), ("Value", v), ("Message", msg), ("read", .bool false)]) := by
  obtain ⟨nm, w, wabt, hadd, habt, hhour, hframe, -, -, -⟩ :=
    add_alert_spec hour p v msg d dabt (.valid (.obj d)) rfl (Or.inl hd) hnd hne
  refine ⟨nm, w, wabt, hadd, habt, ?_, hhour⟩
  intro k rec hk
  have hkne : k ≠ hour := by
    intro hkh
    rw [hkh, hnew] at hk
    cases hk
  rw [hframe k hkne]
  exact hk

/-- C8 witness: the theorem applied at the spec example, on-disk records at
07:00 and 08:00 and a fresh 09:00 added. -/
theorem add_alert_preserves_other_hours_witness :
    add_alert_by_time "09:00" (.str "Humidity") (.num 70) (.str "Humid") true
      (.valid (.obj [("active_alerts", .arr []), ("read_alerts", .arr []),
        ("alerts_by_time", .obj [("07:00", .str "A"), ("08:00", .str "B")])])) ≠
      .error () := by
  obtain ⟨nm, w, wabt, hadd, -⟩ :=
    add_alert_preserves_other_hours "09:00" (.str "Humidity") (.num 70) (.str "Humid")
      [("active_alerts", .arr []), ("read_alerts", .arr []),
       ("alerts_by_time", .obj [("07:00", .str "A"), ("08:00", .str "B")])]
      [("07:00", .str "A"), ("08:00", .str "B")]
      rfl rfl (by decide) (by decide)
  rw [hadd]
  simp

/-- C9: the trend accessor returns the first entry of the collaborator
averaged-trend sequence whose Date equals the requested date and the empty
mapping when none matches, and the detailed accessor returns the detailed
mapping at the date key and the empty mapping when the key is absent; in
particular neither lookup miss is an error.  Stated for trend entries that
are objects carrying a Date field, as the collaborator interface
specifies. -/
theorem trend_lookup_miss_empty (data_list : List JValue) (date : String) (dd : JObj)
    (hshape : ∀ item ∈ data_list, ∃ o : JObj, item = .obj o ∧ (alookup "Date" o).isSome = true) :
    get_trend_data data_list date =
      .ok ((data_list.find? (fun item =>
        match item with
        | .obj o =>
          match alookup "Date" o with
          | some dv => pyEqStr dv date
          | none => false
        | _ => false)).getD (.obj [])) ∧
    get_detailed_trend_data (.obj dd) date = .ok (getD dd date (.obj [])) := by
  refine ⟨?_, rfl⟩
  induction data_list with
  | nil => rfl
  | cons item rest ih =>
    have hrest := ih (fun q hq => hshape q (List.mem_cons_of_mem item hq))
    obtain ⟨o, rfl, hds⟩ := hshape item (List.mem_cons_self item rest)
    obtain ⟨dv, hdv⟩ := Option.isSome_iff_exists.mp hds
    cases hp : pyEqStr dv date with
    | true =>
      rw [List.find?_cons_of_pos _ (by simp [hdv, hp])]
      simp [get_trend_data, pyIndex, hdv, hp]
    | false =>
      rw [List.find?_cons_of_neg _ (by simp [hdv, hp])]
      simp only [get_trend_data, pyIndex, hdv, hp, if_false]
      exact hrest

/-- C9 witness: the theorem applied at a two-entry trend list with no
matching date and a detailed mapping lacking the date key; both accessors
return the empty mapping. -/
theorem trend_lookup_miss_empty_witness :
    get_trend_data [.obj [("Date", .str "2024-01-01"), ("Temperature", .num 20)],
        .obj [("Date", .str "2024-01-02"), ("Temperature", .num 21)]] "2024-03-05" =
      .ok (.obj []) ∧
    get_detailed_trend_data (.obj [("2024-01-01", .obj [])]) "2024-03-05" =
      .ok (.obj []) := by
  have hshape : ∀ item ∈ ([.obj [("Date", .str "2024-01-01"), ("Temperature", .num 20)],
      .obj [("Date", .str "2024-01-02"), ("Temperature", .num 21)]] : List JValue),
      ∃ o : JObj, item = .obj o ∧ (alookup "Date" o).isSome = true := by
    intro item hi
    rcases List.mem_cons.mp hi with rfl | hi2
    · exact ⟨[("Date", .str "2024-01-01"), ("Temperature", .num 20)], rfl, rfl⟩
    · rcases List.mem_cons.mp hi2 with rfl | h3
      · exact ⟨[("Date", .str "2024-01-02"), ("Temperature", .num 21)], rfl, rfl⟩
      · cases h3
  exact trend_lookup_miss_empty
    [.obj [("Date", .str "2024-01-01"), ("Temperature", .num 20)],
     .obj [("Date", .str "2024-01-02"), ("Temperature", .num 21)]] "2024-03-05"
    [("2024-01-01", .obj [])] hshape

/-- C10: implicit frame property of save against a parsed on-disk JSON
object: every top-level field of the disk document other than the three
alert fields is carried over with the same key and value into the written
document and into the updated in-memory document, and top-level fields
present only in the in-memory document are not written to disk. -/
theorem save_preserves_unrelated_fields
    (m mabt dabt d : JObj)
    (hm : alookup "alerts_by_time" m = some (.obj mabt))
    (hd : alookup "alerts_by_time" d = some (.obj dabt) ∨
          (alookup "alerts_by_time" d = none ∧ dabt = []))
    (hnd : (keys d).Nodup) :
    ∃ nm w : JObj,
      save_alerts_to_file true (.obj m) (.valid (.obj d)) = .ok (.obj nm, .valid (.obj w)) ∧
      (∀ k vv, k ≠ "active_alerts" → k ≠ "read_alerts" → k ≠ "alerts_by_time" →
        alookup k d = some vv → alookup k w = some vv ∧ alookup k nm = some vv) ∧
      (∀ k, k ≠ "active_alerts" → k ≠ "read_alerts" → k ≠ "alerts_by_time" →
        alookup k d = none → alookup k w = none) := by
  obtain ⟨w, hw, hact, hread, habt, hother, hndw⟩ :=
    save_to_file_spec m d mabt dabt (.valid (.obj d)) rfl hm hd
  refine ⟨updateAll m w, w, hw, ?_, ?_⟩
  · intro k vv h1 h2 h3 hkv
    have hkw : alookup k w = some vv := by
      rw [hother k h1 h2 h3]
      exact hkv
    exact ⟨hkw, alookup_updateAll_some m (hndw hnd) hkw⟩
  · intro k h1 h2 h3 hkn
    rw [hother k h1 h2 h3]
    exact hkn

/-- C10 witness: the theorem applied at a disk document with an unrelated
field "note" and an in-memory document with an extra field "extra". -/
theorem save_preserves_unrelated_fields_witness :
    save_alerts_to_file true
      (.obj [("active_alerts", .arr []), ("read_alerts", .arr []),
             ("alerts_by_time", .obj []), ("extra", .num 1)])
      (.valid (.obj [("active_alerts", .arr []), ("read_alerts", .arr []),
             ("alerts_by_time", .obj []), ("note", .str "keep")])) ≠ .error () := by
  obtain ⟨nm, w, hw, -⟩ :=
    save_preserves_unrelated_fields
      [("active_alerts", .arr []), ("read_alerts", .arr []),
       ("alerts_by_time", .obj []), ("extra", .num 1)]
      [] []
      [("active_alerts", .arr []), ("read_alerts", .arr []),
       ("alerts_by_time", .obj []), ("note", .str "keep")]
      rfl (Or.inl rfl) (by decide)
  rw [hw]
  simp
